import Mathlib

/-
Verification development for the AI-Constellation debate backend.

The Lean definitions below are a shallow embedding of the Python sources:
  - backend/fast_api/ai_constellation/llm_clients/base_client.py
  - backend/fast_api/ai_constellation/simulator/panelist.py
  - backend/fast_api/ai_constellation/tech/discussion_strategist.py
  - backend/fast_api/ai_constellation/simulator/facilitator.py
  - backend/fast_api/connection_manager.py
  - backend/fast_api/room_manager.py

External collaborators (the LLM network client, the HuggingFace embedding
pipeline, and `string.Template.safe_substitute`) are modelled as oracle
function parameters: the spec declares them deterministic for fixed input.
Floating-point numpy arithmetic is modelled over `ℝ`.
-/

namespace AicLocal

/-! ### numpy argmax / argmin

`np.argmax` and `np.argmin` return the index of the first occurrence of the
extremal value.  The recursive definitions below keep the earlier index on
ties, matching that semantics. -/

/-- Model of `np.argmax` on a one-dimensional array: index of the first
occurrence of the maximum (`0` on the empty list, where numpy raises). -/
def argmaxList {α : Type} [LinearOrder α] : List α → ℕ
  | [] => 0
  | [_] => 0
  | x :: y :: rest =>
    if x < (y :: rest).getD (argmaxList (y :: rest)) x then argmaxList (y :: rest) + 1 else 0

/-- Model of `np.argmin` on a one-dimensional array: index of the first
occurrence of the minimum (`0` on the empty list, where numpy raises). -/
def argminList {α : Type} [LinearOrder α] : List α → ℕ
  | [] => 0
  | [_] => 0
  | x :: y :: rest =>
    if (y :: rest).getD (argminList (y :: rest)) x < x then argminList (y :: rest) + 1 else 0

/-! ### LLM message formatting (base_client.py)

`BaseLLMClient.format_system_message` / `format_user_message` /
`format_assistant_message` produce `{'role': ..., 'content': ...}` dicts;
`BaseLLMClient.generate` returns `result.choices[0].message.content`, i.e. a
plain string.  The network call itself is an oracle `List ChatMsg → String`. -/

/-- A role-tagged chat message, the `{'role': r, 'content': c}` dict of
`base_client.py`. -/
structure ChatMsg where
  role : String
  content : String
deriving DecidableEq, Repr

/-- `BaseLLMClient.format_system_message`. -/
def formatSystemMessage (prompt : String) : ChatMsg := ⟨"system", prompt⟩

/-- `BaseLLMClient.format_user_message`. -/
def formatUserMessage (prompt : String) : ChatMsg := ⟨"user", prompt⟩

/-- `BaseLLMClient.format_assistant_message`. -/
def formatAssistantMessage (prompt : String) : ChatMsg := ⟨"assistant", prompt⟩

/-! ### Panelist (panelist.py) -/

/-- The mutable state of a `Panelist`: identity plus the owned conversation
memory `chat_log`. -/
structure PanelistState where
  id : String
  name : String
  persona : String
  system_prompt : String
  chat_log : List ChatMsg
deriving DecidableEq, Repr

/-- `Panelist.__init__`: the constructor seeds `chat_log` with the system
message. -/
def mkPanelist (id name persona system_prompt : String) : PanelistState :=
  { id := id, name := name, persona := persona, system_prompt := system_prompt,
    chat_log := [formatSystemMessage system_prompt] }

/-- `Panelist.log`: append the user/assistant exchange to `chat_log`. -/
def panelistLog (st : PanelistState) (user_prompt response : String) : PanelistState :=
  { st with chat_log :=
      st.chat_log ++ [formatUserMessage user_prompt, formatAssistantMessage response] }

/-- `Panelist.generate`: query the LLM on `chat_log ++ [user msg]`, then
commit the exchange via `Panelist.log`.  `gen` is the LLM-client oracle. -/
def panelistGenerate (gen : List ChatMsg → String) (st : PanelistState)
    (user_prompt : String) : String × PanelistState :=
  let response := gen (st.chat_log ++ [formatUserMessage user_prompt])
  (response, panelistLog st user_prompt response)

/-- `Panelist.generate_wo_log` on a list of prompts: one speculative
generation per prompt, `chat_log` untouched. -/
def panelistGenerateWoLogList (gen : List ChatMsg → String) (st : PanelistState)
    (prompts : List String) : List String :=
  prompts.map (fun p => gen (st.chat_log ++ [formatUserMessage p]))

/-! ### DiscussionEvaluator (discussion_strategist.py, lines 247-327)

The embedding pipeline is an oracle `embed : String → List ℝ` (the code takes
the first-token vector of each text; the spec declares the capability
deterministic).  numpy float arithmetic is modelled over `ℝ`. -/

/-- `np.sum((u - v)**2, axis=-1)` for one row pair. -/
def sqDiffSum (u v : List ℝ) : ℝ :=
  (List.zipWith (fun a b => (a - b) ^ 2) u v).sum

/-- `''.join(discussion_i[:-1])`: the discussion log without the last
comment. -/
def priorTextOf (d : List String) : String := String.join d.dropLast

/-- `''.join(discussion_i)`: the whole discussion log. -/
def fullTextOf (d : List String) : String := String.join d

/-- `''.join(discussion_i[-2]) if len(discussion_i) >= 2 else ''`
(joining the characters of a string is the identity). -/
def lastCommentOf (d : List String) : String :=
  if 2 ≤ d.length then d.getD (d.length - 2) "" else ""

/-- `''.join(discussion_i[-1]) if len(discussion_i) >= 2 else ''`. -/
def newCommentOf (d : List String) : String :=
  if 2 ≤ d.length then d.getD (d.length - 1) "" else ""

/-- `scores_origin` for one candidate:
`np.sqrt(np.sum((all_embeds - prev_embeds)**2, axis=-1) / n_dims)` where
`n_dims` is the dimensionality of the full-text embedding row. -/
noncomputable def impactScore (embed : String → List ℝ) (d : List String) : ℝ :=
  Real.sqrt (sqDiffSum (embed (fullTextOf d)) (embed (priorTextOf d)) /
    ((embed (fullTextOf d)).length : ℝ))

/-- `distance` of the penalty block:
`np.sqrt(np.sum((new_embeds - last_embeds)**2, axis=-1) / n_dims)` where
`n_dims` is the dimensionality of the new-comment embedding row. -/
noncomputable def coherenceDistance (embed : String → List ℝ) (d : List String) : ℝ :=
  Real.sqrt (sqDiffSum (embed (newCommentOf d)) (embed (lastCommentOf d)) /
    ((embed (newCommentOf d)).length : ℝ))

/-- `penalty = np.exp(-distance)` for one candidate. -/
noncomputable def coherencePenalty (embed : String → List ℝ) (d : List String) : ℝ :=
  Real.exp (-(coherenceDistance embed d))

/-- `DiscussionEvaluator.eval`: per candidate, `score = scores_origin * penalty`.
The numpy implementation batches the embedding calls; with a deterministic
embedding oracle the batched computation is element-wise, hence a `map`. -/
noncomputable def evaluatorEval (embed : String → List ℝ)
    (discussions : List (List String)) : List ℝ :=
  discussions.map (fun d => impactScore embed d * coherencePenalty embed d)

/-! ### DiscussionStateJudge (discussion_strategist.py, lines 174-244) -/

/-- Construction data of `DiscussionStateJudge` (client and pipeline are
passed separately as oracles). -/
structure JudgeConfig where
  state_names : List String
  state_judge_prompt : String

/-- `'\n'.join('「' + comment + '」' for comment in previous_comments)`. -/
def judgeQuotedComments (previous_comments : List String) : String :=
  String.intercalate "\n" (previous_comments.map (fun c => "「" ++ c ++ "」"))

/-- The judging prompt: `string.Template(...).safe_substitute` is stdlib
plumbing, modelled by the oracle `subst` applied to the template and the
placeholder map. -/
def judgeBuildPrompt (subst : String → List (String × String) → String)
    (j : JudgeConfig) (previous_comments : List String) : String :=
  subst j.state_judge_prompt
    [("__comments__", judgeQuotedComments previous_comments),
     ("__options__", String.intercalate "\n" j.state_names)]

/-- The per-state embedding cache computed in `DiscussionStateJudge.__init__`. -/
def judgeStateEmbeds (embed : String → List ℝ) (j : JudgeConfig) : List (List ℝ) :=
  j.state_names.map embed

/-- `np.linalg.norm(A)` with no `axis` argument: the Frobenius norm of the
whole matrix, a single scalar. -/
noncomputable def frobeniusNorm (rows : List (List ℝ)) : ℝ :=
  Real.sqrt ((rows.map (fun r => (r.map (fun a => a ^ 2)).sum)).sum)

/-- The selection step of `DiscussionStateJudge.eval`:
`distances = np.linalg.norm(self.state_embeds - response_embed)` broadcasts
the subtraction row-wise and then collapses the whole matrix to ONE scalar
(no `axis=` is passed), and `np.argmin` of that zero-dimensional array is
always `0`; the scalar is modelled as a one-element list fed to `argminList`. -/
noncomputable def judgeSelectIdx (stateEmbeds : List (List ℝ)) (respEmbed : List ℝ) : ℕ :=
  argminList
    [frobeniusNorm (stateEmbeds.map (fun e => List.zipWith (fun a b => a - b) e respEmbed))]

/-- The embedding-comparison tail of `DiscussionStateJudge.eval`
(`state_name = self.state_names[np.argmin(distances)]`), as a function of the
cached state embeddings and the embedded LLM answer. -/
noncomputable def judgeEvalCore (state_names : List String)
    (stateEmbeds : List (List ℝ)) (respEmbed : List ℝ) : String :=
  state_names.getD (judgeSelectIdx stateEmbeds respEmbed) ""

/-- `DiscussionStateJudge.eval`: ask the LLM (empty system message plus the
judging prompt as the user message), embed the free-text answer, and select a
state name.  `llm` is the LLM-client oracle, `embed` the pipeline oracle. -/
noncomputable def judgeEval (embed : String → List ℝ) (llm : List ChatMsg → String)
    (subst : String → List (String × String) → String)
    (j : JudgeConfig) (previous_comments : List String) : String :=
  let prompt := judgeBuildPrompt subst j previous_comments
  let response := llm [formatSystemMessage "", formatUserMessage prompt]
  judgeEvalCore j.state_names (judgeStateEmbeds embed j) (embed response)

/-- Modelled from the spec (§4.2): `classify` "returns the state name whose
cached embedding has minimum Euclidean distance to the answer's embedding.
Ties broken by first occurrence in the enumerated order (argmin semantics)."
Stated on the cached embeddings and the embedded answer, for comparison with
`judgeEvalCore`. -/
noncomputable def spec_classify (state_names : List String)
    (stateEmbeds : List (List ℝ)) (answerEmbed : List ℝ) : String :=
  state_names.getD
    (argminList (stateEmbeds.map (fun e => Real.sqrt (sqDiffSum e answerEmbed)))) ""

/-! ### DiscussionStrategist (discussion_strategist.py, lines 27-171) -/

/-- Construction data of `DiscussionStrategist`: the tail phrases, the
state → legal-indices dict (a total function: the Python dict lookup
`legal_prompts_dict[state]` is assumed keyed for every state name), and the
optional judge (`None` when `state_names` is empty). -/
structure StrategistConfig where
  tail_prompts : List String
  legal_prompts_dict : String → List ℕ
  state_judge : Option JudgeConfig

/-- The `legal_actions` list of `DiscussionStrategist.get_best_response`:
with no judge all tail phrases are used; otherwise the judged state restricts
to the tail phrases whose index is legal for that state.  Each action is
`base_prompt + tail_prompt_i`. -/
noncomputable def legalActions (embed : String → List ℝ) (llm : List ChatMsg → String)
    (subst : String → List (String × String) → String) (cfg : StrategistConfig)
    (previous_comments : List String) (base_prompt : String) : List String :=
  match cfg.state_judge with
  | none => cfg.tail_prompts.map (fun t => base_prompt ++ t)
  | some j =>
    let state := judgeEval embed llm subst j previous_comments
    (cfg.tail_prompts.enum.filter
      (fun p => p.1 ∈ cfg.legal_prompts_dict state)).map (fun p => base_prompt ++ p.2)

/-- `DiscussionStrategist.get_best_response`: generate one speculative
response per legal action, score the hypothetical discussions, pick the
argmax, commit the winning exchange via `Panelist.log`, return the winner.
`gen` is the panelist's LLM-client oracle, `llm` the strategist's. -/
noncomputable def getBestResponse (embed : String → List ℝ) (llm : List ChatMsg → String)
    (subst : String → List (String × String) → String) (gen : List ChatMsg → String)
    (cfg : StrategistConfig) (previous_comments : List String) (base_prompt : String)
    (st : PanelistState) : String × PanelistState :=
  let legal_actions := legalActions embed llm subst cfg previous_comments base_prompt
  let responses := panelistGenerateWoLogList gen st legal_actions
  let discussions := responses.map (fun r => previous_comments ++ [r])
  let rewards := evaluatorEval embed discussions
  let best_index := argmaxList rewards
  let best_response := responses.getD best_index ""
  (best_response, panelistLog st (legal_actions.getD best_index "") best_response)

/-! ### Facilitator / DebateContext (facilitator.py) -/

/-- One `DiscussionLog` entry (facilitator.py, lines 27-44). -/
structure DiscussionLog where
  agenda : String
  panelist_id : String
  panelist_name : String
  panelist_persona : String
  comment : String
deriving DecidableEq, Repr

/-- `DebateContext` (facilitator.py, lines 47-110).  The LLM clients are held
outside the context in the source and are modelled as oracles. -/
structure DebateContext where
  panelists : List PanelistState
  panelist_names : List String
  panelist_personas : List String
  panelist_characteristics : List String
  panelist_models : List String
  system_prompt : String
  first_user_prompt : String
  subsequent_user_prompt : String
  additional_first_user_prompt : String
  additional_subsequent_user_prompt : String
  additional_last_user_prompt : String
  num_discussion_turn : ℕ
  agendas : List String
  use_strategy : Bool
  lang : String
  discussion_log : List DiscussionLog
deriving DecidableEq, Repr

/-- `DebateContext.current_agenda`: last agenda, `''` if none. -/
def DebateContext.current_agenda (ctx : DebateContext) : String :=
  match ctx.agendas.getLast? with
  | some a => a
  | none => ""

/-- `DebateContext.last_agenda`: second-to-last agenda, `''` if fewer than
two. -/
def DebateContext.last_agenda (ctx : DebateContext) : String :=
  if 1 < ctx.agendas.length then ctx.agendas.getD (ctx.agendas.length - 2) "" else ""

/-- `Facilitator.get_prompt_template` (facilitator.py, lines 332-364).  The
source wraps the selected string in `string.Template`; the model returns the
template string itself. -/
def getPromptTemplate (ctx : DebateContext) (is_continue : Bool) (turn : ℕ)
    (panelist_no : ℕ) : String :=
  if is_continue then
    if turn = 1 then
      if panelist_no = 0 then ctx.additional_first_user_prompt
      else if panelist_no = ctx.panelists.length - 1 then ctx.additional_last_user_prompt
      else ctx.additional_subsequent_user_prompt
    else ctx.subsequent_user_prompt
  else
    if panelist_no = 0 then ctx.first_user_prompt
    else ctx.subsequent_user_prompt

/-- The `DebateContext` assembled by `Facilitator.__init__` (lines 182-217):
panelists are built in configured order with `id = str(i)` and a system
prompt obtained by substituting persona and characteristics into the template
(`subst` again models `string.Template.safe_substitute`). -/
def mkDebateContext (subst : String → List (String × String) → String)
    (panelist_names panelist_personas panelist_characteristics panelist_models : List String)
    (system_prompt first_user_prompt subsequent_user_prompt additional_first_user_prompt
      additional_subsequent_user_prompt additional_last_user_prompt : String)
    (num_discussion_turn : ℕ) : DebateContext :=
  let triples := (panelist_names.zip panelist_personas).zip panelist_characteristics
  { panelists := triples.enum.map (fun p =>
      mkPanelist (toString p.1) p.2.1.1 p.2.1.2
        (subst system_prompt
          [("__persona__", p.2.1.2), ("__characteristics__", p.2.2)])),
    panelist_names := panelist_names,
    panelist_personas := panelist_personas,
    panelist_characteristics := panelist_characteristics,
    panelist_models := panelist_models,
    system_prompt := system_prompt,
    first_user_prompt := first_user_prompt,
    subsequent_user_prompt := subsequent_user_prompt,
    additional_first_user_prompt := additional_first_user_prompt,
    additional_subsequent_user_prompt := additional_subsequent_user_prompt,
    additional_last_user_prompt := additional_last_user_prompt,
    num_discussion_turn := num_discussion_turn,
    agendas := [],
    use_strategy := false,
    lang := "en",
    discussion_log := [] }

/-! ### ConnectionManager (connection_manager.py)

Websocket transport, wall-clock timestamps and file IO are external; the
wall clock enters as a `PushEnv` value per push and the cache-file lookup as
a boolean in `StartEnv`.  The viewer-connection registry is untouched by the
operations the claims quantify over and is omitted from the state. -/

/-- The transport `Message` dataclass (connection_manager.py, lines 27-48).
`type` is spelled `mtype` (`type` is a Lean keyword); unset optional fields
are modelled as `""` / `none`. -/
structure Message where
  mtype : String := ""
  user_name : String := ""
  msg_text : String := ""
  timestamp : String := ""
  time : String := ""
  user_img : String := ""
  handover_datum : Option String := none
deriving DecidableEq, Repr, Inhabited

/-- Wall-clock data consumed by one `push_message` call
(`datetime.now() + timedelta(hours=9)`, as timestamp string and `%H:%M`
string). -/
structure PushEnv where
  now_ts : String
  now_time : String
deriving DecidableEq, Repr

/-- A scheduled `do_discussion` background task
(`asyncio.create_task(self.do_discussion(...))` and the awaited call in
`start_additional_discussion`), recorded with its arguments. -/
structure DebateTask where
  agenda : String
  is_continue : Bool
  use_strategy : Bool
  lang : String
  cache_loaded : Bool
deriving DecidableEq, Repr

/-- The per-session mutable state of `ConnectionManager`. -/
structure CMState where
  messages : List Message
  accessible_messages : List Message
  accessible_index : Int
  is_running_discussion : Bool
  should_stop : Bool
  user_name : String
  image_dict : List (String × String)
  discussion_module : Option DebateContext
  pending_tasks : List DebateTask

/-- `ConnectionManager.reset_message_db`. -/
def resetMessageDb (st : CMState) : CMState :=
  { st with messages := [], accessible_messages := [], accessible_index := -1 }

/-- `ConnectionManager.__init__` (plus unset attributes defaulted). -/
def cmInit : CMState :=
  { messages := [], accessible_messages := [], accessible_index := -1,
    is_running_discussion := false, should_stop := false,
    user_name := "", image_dict := [], discussion_module := none, pending_tasks := [] }

/-- `ConnectionManager.get_user_img`: registry lookup, then the `'system'`
special case, else `''`. -/
def getUserImg (image_dict : List (String × String)) (name : String) : String :=
  match image_dict.lookup name with
  | some url => url
  | none => if name = "system" then "/images/system.png" else ""

/-- The quote-stripping step of `push_message` (lines 197-199):
`if msg_text[0] == '「' and msg_text[-1] == '」': msg_text = msg_text[1:-2]`.
The slice `[1:-2]` drops the first character and the LAST TWO characters.
(The source raises `IndexError` on empty text; the nonemptiness conjunct
makes the model total there.) -/
def stripQuoteWrap (s : String) : String :=
  if s ≠ "" ∧ s.front = '「' ∧ s.back = '」' then (s.drop 1).dropRight 2 else s

/-- Modelled from the spec (§4.6): `push` "strips a single layer of wrapping
quote marks if present at both ends" — i.e. removes exactly the first and the
last character of a wrapped text, leaving the interior unchanged. -/
def spec_strip_single_layer (s : String) : String :=
  if s ≠ "" ∧ s.front = '「' ∧ s.back = '」' then (s.drop 1).dropRight 1 else s

/-- `ConnectionManager.push_message` (lines 191-205): strip the quote wrap,
stamp wall-clock data, resolve the author image, and append to the full log
unconditionally. -/
def pushMessage (st : CMState) (env : PushEnv) (m : Message) : CMState :=
  let m' := { m with
    msg_text := stripQuoteWrap m.msg_text,
    timestamp := env.now_ts,
    time := env.now_time,
    user_img := getUserImg st.image_dict m.user_name }
  { st with messages := st.messages ++ [m'] }

/-- `ConnectionManager.add_accessible_message` (lines 207-219): if the whole
log is already visible, do nothing; otherwise promote exactly one more
message and advance the cursor.  (The broadcast is transport IO and does not
change the state.) -/
def addAccessibleMessage (st : CMState) : CMState :=
  if (st.messages.length : Int) ≤ st.accessible_index + 1 then st
  else
    { st with
      accessible_messages :=
        st.accessible_messages ++ [st.messages.getD (st.accessible_index + 1).toNat default],
      accessible_index := st.accessible_index + 1 }

/-- One externally triggered operation on the message stores. -/
inductive CMOp where
  | push (env : PushEnv) (m : Message)
  | reveal
deriving Repr

/-- Apply one operation. -/
def cmStep (st : CMState) : CMOp → CMState
  | .push env m => pushMessage st env m
  | .reveal => addAccessibleMessage st

/-- Run a sequence of push / reveal operations from the freshly reset
state. -/
def runOps (ops : List CMOp) : CMState := ops.foldl cmStep cmInit

/-- The per-participant display config extracted in `start_discussion`
(lines 250-256). -/
structure ParticipantConfig where
  name : String
  image : String
  voice_id : String
  voice_pitch : String
deriving DecidableEq, Repr

/-- One entry of `config_message['panelists']`. -/
structure PanelistConfig where
  name : String
  image : String
  voice_id : String
  voice_pitch : String
  persona : String
  characteristics : String
  model : String
deriving DecidableEq, Repr

/-- The fields of `config_message` consumed by `start_discussion`. -/
structure StartConfig where
  user : ParticipantConfig
  panelists : List PanelistConfig
  system_prompt : String
  first_user_prompt : String
  subsequent_user_prompt : String
  additional_first_user_prompt : String
  additional_subsequent_user_prompt : String
  additional_last_user_prompt : String
  agenda : String
  tech_enable : Bool
  lang : String

/-- External inputs of one `start_discussion` call: the wall clock for the
start-message push and whether the optional cache file was found and loaded
(file IO). -/
structure StartEnv where
  push_env : PushEnv
  cache_loaded : Bool
deriving DecidableEq, Repr

/-- The request status dict returned by `start_discussion`:
`{"status": "failed"}` or `{"status": "succeeded", "exist_cache": ...}`. -/
inductive StartResult where
  | failed
  | succeeded (exist_cache : Bool)
deriving DecidableEq, Repr

/-- `participants_config` of `start_discussion` (lines 250-256): the user
first, then the panelists, projected to display fields. -/
def participantsConfigOf (cfg : StartConfig) : List ParticipantConfig :=
  ⟨cfg.user.name, cfg.user.image, cfg.user.voice_id, cfg.user.voice_pitch⟩ ::
    cfg.panelists.map (fun p => ⟨p.name, p.image, p.voice_id, p.voice_pitch⟩)

/-- `ConnectionManager.start_discussion` (lines 223-319).  If the busy flag
is up, return `failed` without touching the state.  Otherwise: raise the
busy flag, lower the stop flag, record user name and image registry, reset
the message stores, push the `'議論開始'` system message (with the handover
payload), build the `Facilitator` (its `DebateContext`; clients and the
strategist are oracles elsewhere), schedule `do_discussion` as a background
task — and lower the busy flag in the `finally` block before returning, with
the scheduled debate still pending. -/
def startDiscussion (subst : String → List (String × String) → String)
    (st : CMState) (cfg : StartConfig) (env : StartEnv) (handover : String) :
    StartResult × CMState :=
  if st.is_running_discussion then (.failed, st)
  else
    let st1 := { st with is_running_discussion := true, should_stop := false }
    let participants := participantsConfigOf cfg
    let st2 := { st1 with
      user_name := cfg.user.name,
      image_dict := participants.map (fun p => (p.name, p.image)) }
    let st3 := resetMessageDb st2
    let st4 := pushMessage st3 env.push_env
      { mtype := "system_info", user_name := "system", msg_text := "議論開始",
        handover_datum := some handover }
    let st5 := { st4 with
      discussion_module := some (mkDebateContext subst
        (cfg.panelists.map (fun p : PanelistConfig => p.name))
        (cfg.panelists.map (fun p : PanelistConfig => p.persona))
        (cfg.panelists.map (fun p : PanelistConfig => p.characteristics))
        (cfg.panelists.map (fun p : PanelistConfig => p.model))
        cfg.system_prompt cfg.first_user_prompt cfg.subsequent_user_prompt
        cfg.additional_first_user_prompt cfg.additional_subsequent_user_prompt
        cfg.additional_last_user_prompt 1),
      pending_tasks := st4.pending_tasks ++
        [({ agenda := cfg.agenda, is_continue := false, use_strategy := cfg.tech_enable,
            lang := cfg.lang, cache_loaded := env.cache_loaded } : DebateTask)] }
    (.succeeded env.cache_loaded, { st5 with is_running_discussion := false })

/-! ### RoomManager (room_manager.py) -/

/-- The `Room` dataclass (the owned `ConnectionManager` and the creation
time are irrelevant to id assignment and kept as plain data). -/
structure Room where
  room_id : ℕ
  room_name : String
  created_at : String
deriving DecidableEq, Repr

/-- The room registry: an insertion-ordered dict keyed by room id. -/
structure RoomManagerState where
  room_db : List (ℕ × Room)
deriving DecidableEq, Repr

/-- The id chosen by `create_room`:
`DEFAULT_ROOM_ID if len(self.room_db) == 0 else max(self.room_db.keys()) + 1`. -/
def newRoomId (st : RoomManagerState) : ℕ :=
  if st.room_db.isEmpty then 1 else (st.room_db.map (·.1)).foldl max 0 + 1

/-- `RoomManager.create_room`: build the room with the fresh id and insert it
(the fresh id never collides with an existing key, so dict insertion is an
append). -/
def createRoom (st : RoomManagerState) (room_name created_at : String) :
    RoomManagerState × Room :=
  let rid := newRoomId st
  let room : Room := { room_id := rid, room_name := room_name, created_at := created_at }
  ({ room_db := st.room_db ++ [(rid, room)] }, room)

/-- `RoomManager.delete_room`: remove by id, returning the removed room, or
`none` when the id is unknown. -/
def deleteRoom (st : RoomManagerState) (rid : ℕ) : RoomManagerState × Option Room :=
  match st.room_db.lookup rid with
  | none => (st, none)
  | some r => ({ room_db := st.room_db.filter (fun p => p.1 ≠ rid) }, some r)

/-- `RoomManager.__init__`: start with one room named `"Room 1"`. -/
def rmInit (created_at : String) : RoomManagerState :=
  (createRoom { room_db := [] } "Room 1" created_at).1

/-! ### Spec-side formulations (for refinement comparisons)

Each `spec_*` definition below follows the wording of spec.md, to be compared
against the definitions translated from the source. -/

/-- Modelled from the spec (§4.3 step 2): the "second-to-last segment" of a
candidate discussion, or the empty string when the discussion has fewer than
two segments. -/
def spec_prev_segment (d : List String) : String :=
  if d.length < 2 then "" else d.getD (d.length - 2) ""

/-- Modelled from the spec (§4.3 step 2): the "last segment" of a candidate
discussion, or the empty string when the discussion has fewer than two
segments. -/
def spec_last_segment (d : List String) : String :=
  if d.length < 2 then "" else d.getD (d.length - 1) ""

/-- Modelled from the spec (§4.3 step 1): impact score = Euclidean distance
between the prior-text embedding (concatenation of all segments except the
last) and the full-text embedding, "normalized by dividing squared distance
sum by embedding dimensionality before taking the square root".  `D` is the
fixed embedding dimensionality of §2 ("fixed-length numeric vector"). -/
noncomputable def spec_impact_score (embed : String → List ℝ) (D : ℕ)
    (d : List String) : ℝ :=
  Real.sqrt (sqDiffSum (embed (String.join (d.take (d.length - 1))))
    (embed (String.join d)) / (D : ℝ))

/-- Modelled from the spec (§4.3 step 2): coherence penalty =
`exp(−distance)` for the normalized Euclidean distance between the embeddings
of the second-to-last and last segments. -/
noncomputable def spec_coherence_penalty (embed : String → List ℝ) (D : ℕ)
    (d : List String) : ℝ :=
  Real.exp (-(Real.sqrt (sqDiffSum (embed (spec_prev_segment d))
    (embed (spec_last_segment d)) / (D : ℝ))))

/-! ### Concrete fixtures used by witnesses -/

/-- A 3-panelist, 2-turn debate context (the configuration named by the
spec's testable property 5). -/
def exampleDebateCtx : DebateContext :=
  mkDebateContext (fun t _ => t) ["A", "B", "C"] ["pa", "pb", "pc"]
    ["ca", "cb", "cc"] ["m", "m", "m"] "sys" "first" "subseq" "add-first"
    "add-subseq" "add-last" 2

/-- A constant one-dimensional embedding oracle. -/
noncomputable def embedW : String → List ℝ := fun _ => [1]

/-- A constant LLM-client oracle. -/
def llmW : List ChatMsg → String := fun _ => "llm-answer"

/-- A trivial template-substitution oracle. -/
def substW : String → List (String × String) → String := fun t _ => t

/-- A constant panelist LLM-client oracle. -/
def genW : List ChatMsg → String := fun _ => "candidate-response"

/-- A one-tail-phrase strategist configuration with no state judge. -/
def strategistCfgW : StrategistConfig :=
  { tail_prompts := ["T1"], legal_prompts_dict := fun _ => [], state_judge := none }

/-- A concrete panelist. -/
def panelistW : PanelistState := mkPanelist "0" "name" "persona" "sys"

/-- A session state whose busy flag is up. -/
def busyCMState : CMState := { cmInit with is_running_discussion := true }

/-- A minimal `start_discussion` config. -/
def startCfgW : StartConfig :=
  { user := ⟨"user", "user.png", "v", "0"⟩,
    panelists := [⟨"A", "a.png", "v", "0", "pa", "ca", "OpenAI"⟩],
    system_prompt := "sys", first_user_prompt := "first",
    subsequent_user_prompt := "subseq", additional_first_user_prompt := "add-first",
    additional_subsequent_user_prompt := "add-subseq",
    additional_last_user_prompt := "add-last", agenda := "agenda-X",
    tech_enable := false, lang := "ja" }

/-- A concrete `start_discussion` environment. -/
def startEnvW : StartEnv := { push_env := ⟨"1700000000.0", "12:00"⟩, cache_loaded := false }

/-- Five pushes followed by three reveals (the spec's testable property 6). -/
def opsFivePushThreeReveal : List CMOp :=
  [CMOp.push ⟨"t1", "01:01"⟩ { msg_text := "m1" },
   CMOp.push ⟨"t2", "01:02"⟩ { msg_text := "m2" },
   CMOp.push ⟨"t3", "01:03"⟩ { msg_text := "m3" },
   CMOp.push ⟨"t4", "01:04"⟩ { msg_text := "m4" },
   CMOp.push ⟨"t5", "01:05"⟩ { msg_text := "m5" },
   CMOp.reveal, CMOp.reveal, CMOp.reveal]

/-! ## Helper lemmas -/

/-- `getD` does not depend on the default at in-range indices. -/
theorem getD_irrel {α : Type} (l : List α) (i : ℕ) (h : i < l.length) (d d' : α) :
    l.getD i d = l.getD i d' := by
  rw [List.getD_eq_getElem l d h, List.getD_eq_getElem l d' h]

/-- The squared-difference sum of a vector with itself is zero. -/
theorem sqDiffSum_self (u : List ℝ) : sqDiffSum u u = 0 := by
  induction u with
  | nil => simp [sqDiffSum]
  | cons x xs ih =>
    simp only [sqDiffSum, List.zipWith_cons_cons, List.sum_cons] at ih ⊢
    simp [ih]

/-- The squared-difference sum is symmetric in its arguments. -/
theorem sqDiffSum_comm (u v : List ℝ) : sqDiffSum u v = sqDiffSum v u := by
  induction u generalizing v with
  | nil => cases v <;> simp [sqDiffSum]
  | cons x xs ih =>
    cases v with
    | nil => simp [sqDiffSum]
    | cons y ys =>
      have := ih ys
      simp only [sqDiffSum, List.zipWith_cons_cons, List.sum_cons] at this ⊢
      rw [this]; ring_nf

/-- The seed of a `foldl max` is a lower bound of the result. -/
theorem foldl_max_init_le (l : List ℕ) : ∀ b, b ≤ l.foldl max b := by
  induction l with
  | nil => intro b; exact le_refl b
  | cons x xs ih => intro b; exact le_trans (Nat.le_max_left b x) (ih (max b x))

/-- Every member of a list is bounded by its `foldl max`. -/
theorem le_foldl_max (l : List ℕ) : ∀ (b a : ℕ), a ∈ l → a ≤ l.foldl max b := by
  induction l with
  | nil => intro b a h; exact absurd h (List.not_mem_nil a)
  | cons x xs ih =>
    intro b a h
    rw [List.foldl_cons]
    rcases List.mem_cons.mp h with h | h
    · subst h
      exact le_trans (Nat.le_max_right b a) (foldl_max_init_le xs (max b a))
    · exact ih (max b x) a h

/-! ## Claim theorems -/

/-- Claim C1 (code bug): `DiscussionStateJudge.eval` is documented and
specified to return the state whose cached embedding is nearest to the
answer's embedding, but `np.linalg.norm(self.state_embeds - response_embed)`
is called without an `axis` argument, collapsing all per-state distances to
one scalar, so `np.argmin` is always `0` and the first enumerated state is
returned regardless of the distances.  At cached embeddings `[[10], [0]]`
and answer embedding `[0]`, the nearest state is the second one
(`"converging"`, distance 0 versus 10), yet the code returns the first. -/
theorem judge_argmin_bug_at_concrete_input :
    judgeEvalCore ["escalating", "converging"] [[10], [0]] [0] = "escalating" ∧
    spec_classify ["escalating", "converging"] [[10], [0]] [0] = "converging" := by
  constructor
  · simp [judgeEvalCore, judgeSelectIdx, argminList]
  · have h100 : sqDiffSum [(10 : ℝ)] [0] = 100 := by simp [sqDiffSum]; norm_num
    have h0 : sqDiffSum [(0 : ℝ)] [0] = 0 := by simp [sqDiffSum]
    have hpos : (0 : ℝ) < Real.sqrt 100 := Real.sqrt_pos.mpr (by norm_num)
    simp [spec_classify, h100, h0, Real.sqrt_zero, argminList, hpos]

/-- Claim C5: the prompt-template selection table of §4.5.  Not a
continuation: the first panelist gets `first_user_prompt`, everyone else
`subsequent_user_prompt`, for any turn.  Continuation with turn 1: first /
last / middle get the three `additional_*` templates.  Continuation with
turn > 1: everyone gets `subsequent_user_prompt`. -/
theorem prompt_template_selection_table :
    ∀ (ctx : DebateContext) (turn i : ℕ),
      getPromptTemplate ctx false turn 0 = ctx.first_user_prompt ∧
      (i ≠ 0 → getPromptTemplate ctx false turn i = ctx.subsequent_user_prompt) ∧
      getPromptTemplate ctx true 1 0 = ctx.additional_first_user_prompt ∧
      (i = ctx.panelists.length - 1 → i ≠ 0 →
        getPromptTemplate ctx true 1 i = ctx.additional_last_user_prompt) ∧
      (i ≠ 0 → i ≠ ctx.panelists.length - 1 →
        getPromptTemplate ctx true 1 i = ctx.additional_subsequent_user_prompt) ∧
      (1 < turn → getPromptTemplate ctx true turn i = ctx.subsequent_user_prompt) := by
  intro ctx turn i
  refine ⟨by simp [getPromptTemplate], fun h => by simp [getPromptTemplate, h],
    by simp [getPromptTemplate],
    fun h1 h2 => by revert h2; rw [h1]; intro h2; simp [getPromptTemplate, h2],
    fun h1 h2 => by simp [getPromptTemplate, h1, h2], fun h => ?_⟩
  have hne : turn ≠ 1 := by omega
  simp [getPromptTemplate, hne]

/-- Witness for C5: all six rows of the table on the 3-panelist, 2-turn
configuration. -/
theorem prompt_template_witness :
    getPromptTemplate exampleDebateCtx false 1 0 = exampleDebateCtx.first_user_prompt ∧
    getPromptTemplate exampleDebateCtx false 1 1 = exampleDebateCtx.subsequent_user_prompt ∧
    getPromptTemplate exampleDebateCtx true 1 0 = exampleDebateCtx.additional_first_user_prompt ∧
    getPromptTemplate exampleDebateCtx true 1 2 = exampleDebateCtx.additional_last_user_prompt ∧
    getPromptTemplate exampleDebateCtx true 1 1 =
      exampleDebateCtx.additional_subsequent_user_prompt ∧
    getPromptTemplate exampleDebateCtx true 2 1 = exampleDebateCtx.subsequent_user_prompt :=
  ⟨(prompt_template_selection_table exampleDebateCtx 1 0).1,
    (prompt_template_selection_table exampleDebateCtx 1 1).2.1 (by decide),
    (prompt_template_selection_table exampleDebateCtx 1 0).2.2.1,
    (prompt_template_selection_table exampleDebateCtx 1 2).2.2.2.1 (by decide) (by decide),
    (prompt_template_selection_table exampleDebateCtx 1 1).2.2.2.2.1 (by decide) (by decide),
    (prompt_template_selection_table exampleDebateCtx 2 1).2.2.2.2.2 (by decide)⟩

/-- Claim C6 (code bug): `push_message` is meant to strip exactly one layer
of wrapping `「」` quote marks (its own comment and the spec both say so),
but the slice `msg_text[1:-2]` removes the first character and the last TWO
characters.  On `"「abc」"` the stored text is `"ab"` — the final interior
character `c` is lost — while a single-layer strip gives `"abc"`. -/
theorem push_quote_strip_bug_at_concrete_input :
    (pushMessage cmInit ⟨"1700000000.0", "12:00"⟩
        { mtype := "message", user_name := "u", msg_text := "「abc」" }).messages.map
      (fun m => m.msg_text) = ["ab"] ∧
    spec_strip_single_layer "「abc」" = "abc" ∧ ("ab" : String) ≠ "abc" := by
  refine ⟨by decide, by decide, by decide⟩

/-- Claim C7 (counterexample): room ids are NOT always strictly greater than
every id ever previously assigned.  Starting from the initial registry (room
1), creating a room assigns id 2; after deleting room 2, the next create
assigns id 2 again (`max existing + 1` looks only at ids still present), so
an id freed by deletion is reused. -/
theorem room_id_reuse_counterexample :
    (createRoom (rmInit "t0") "A" "t1").2.room_id = 2 ∧
    (createRoom ((deleteRoom (createRoom (rmInit "t0") "A" "t1").1 2).1) "B"
        "t2").2.room_id = 2 := by
  constructor <;> decide

/-- Claim C7 (amended): a newly created room's id is 1 on an empty registry
and otherwise strictly greater than every id currently present in the
registry (max existing + 1); ids above the current maximum — including ids
freed by deleting the highest room — can be assigned again. -/
theorem room_id_greater_than_current_ids :
    ∀ (st : RoomManagerState) (name now : String),
      (st.room_db = [] → (createRoom st name now).2.room_id = 1) ∧
      (∀ p ∈ st.room_db, p.1 < (createRoom st name now).2.room_id) := by
  intro st name now
  constructor
  · intro h; simp [createRoom, newRoomId, h]
  · intro p hp
    have hne : st.room_db ≠ [] := by
      intro h; rw [h] at hp; exact absurd hp (List.not_mem_nil p)
    have hisEmpty : st.room_db.isEmpty = false := by
      cases h : st.room_db with
      | nil => exact absurd h hne
      | cons a l => rfl
    have hmem : p.1 ∈ st.room_db.map (fun q => q.1) := List.mem_map_of_mem _ hp
    have hle : p.1 ≤ (st.room_db.map (fun q => q.1)).foldl max 0 :=
      le_foldl_max _ 0 _ hmem
    simp only [createRoom, newRoomId, hisEmpty, Bool.false_eq_true, if_false]
    omega

/-- Witness for the amended C7. -/
theorem room_id_witness :
    (createRoom ({ room_db := [] } : RoomManagerState) "R" "t").2.room_id = 1 ∧
    (1 : ℕ) < (createRoom (rmInit "t") "A" "t1").2.room_id :=
  ⟨(room_id_greater_than_current_ids { room_db := [] } "R" "t").1 rfl,
    (room_id_greater_than_current_ids (rmInit "t") "A" "t1").2
      (1, (⟨1, "Room 1", "t"⟩ : Room)) (by decide)⟩

/-- Claim C8: when the busy flag `is_running_discussion` is up,
`start_discussion` returns the failure status and the session state is
returned exactly as it was — the early return precedes every mutation. -/
theorem start_discussion_rejects_when_busy :
    ∀ (subst : String → List (String × String) → String) (st : CMState)
      (cfg : StartConfig) (env : StartEnv) (handover : String),
      st.is_running_discussion = true →
      startDiscussion subst st cfg env handover = (.failed, st) := by
  intro subst st cfg env handover h
  simp [startDiscussion, h]

/-- Witness for C8. -/
theorem start_discussion_busy_witness :
    busyCMState.is_running_discussion = true ∧
    startDiscussion substW busyCMState startCfgW startEnvW "h" = (.failed, busyCMState) :=
  ⟨rfl, start_discussion_rejects_when_busy substW busyCMState startCfgW startEnvW "h" rfl⟩

/-- Claim C10 (counterexample): it is NOT true that the busy flag is false
whenever `start_discussion` returns: on the busy-reject path the early
`return {"status": "failed"}` happens before the `try`/`finally` block, so
the flag (raised by the concurrently running call that made the state busy)
is still true after this return. -/
theorem busy_return_leaves_flag_true :
    (startDiscussion substW busyCMState startCfgW startEnvW
      "h").2.is_running_discussion = true := by
  decide

/-- Claim C10 (amended): on every call that passes the busy check (flag false
at entry), `start_discussion` returns with `is_running_discussion` false
again — the `finally` block clears it — even though the debate itself has
only been scheduled as a background task (it sits in the pending-task queue,
its effects not yet applied); on the busy-reject path the flag is left
unchanged (true). -/
theorem nonbusy_return_clears_flag_with_task_pending :
    ∀ (subst : String → List (String × String) → String) (st : CMState)
      (cfg : StartConfig) (env : StartEnv) (handover : String),
      st.is_running_discussion = false →
      (startDiscussion subst st cfg env handover).2.is_running_discussion = false ∧
      (startDiscussion subst st cfg env handover).2.pending_tasks =
        st.pending_tasks ++
          [DebateTask.mk cfg.agenda false cfg.tech_enable cfg.lang env.cache_loaded] := by
  intro subst st cfg env handover h
  constructor <;> simp [startDiscussion, h, pushMessage, resetMessageDb]

/-- Witness for the amended C10. -/
theorem nonbusy_return_witness :
    cmInit.is_running_discussion = false ∧
    (startDiscussion substW cmInit startCfgW startEnvW "h").2.is_running_discussion = false :=
  ⟨rfl, (nonbusy_return_clears_flag_with_task_pending substW cmInit startCfgW startEnvW
    "h" rfl).1⟩

/-- Claim C9: a candidate discussion with exactly one segment makes the
penalty block compare two empty strings, so the coherence distance is 0 and
the coherence penalty is `exp(−0) = 1`, for any embedding oracle. -/
theorem single_segment_penalty_is_one :
    ∀ (embed : String → List ℝ) (d : List String), d.length = 1 →
      coherenceDistance embed d = 0 ∧ coherencePenalty embed d = 1 := by
  intro embed d h
  obtain ⟨s, rfl⟩ := List.length_eq_one.mp h
  have h1 : newCommentOf [s] = "" := by simp [newCommentOf]
  have h2 : lastCommentOf [s] = "" := by simp [lastCommentOf]
  have hd : coherenceDistance embed [s] = 0 := by
    simp [coherenceDistance, h1, h2, sqDiffSum_self]
  exact ⟨hd, by simp [coherencePenalty, hd]⟩

/-- Witness for C9. -/
theorem single_segment_penalty_witness :
    (["hello"] : List String).length = 1 ∧ coherencePenalty embedW ["hello"] = 1 :=
  ⟨rfl, (single_segment_penalty_is_one embedW ["hello"] rfl).2⟩

/-- One step of `cmStep` preserves the visible-store invariant: the cursor
sits one below the visible length, and the visible store is the
corresponding take of the full store. -/
theorem cm_invariant_step (st : CMState) (op : CMOp)
    (h1 : st.accessible_index = (st.accessible_messages.length : Int) - 1)
    (h2 : st.accessible_messages = st.messages.take st.accessible_messages.length) :
    (cmStep st op).accessible_index =
      ((cmStep st op).accessible_messages.length : Int) - 1 ∧
    (cmStep st op).accessible_messages =
      (cmStep st op).messages.take (cmStep st op).accessible_messages.length := by
  cases op with
  | push env m =>
    have hmin := congrArg List.length h2
    rw [List.length_take] at hmin
    have hk : st.accessible_messages.length ≤ st.messages.length := by omega
    refine ⟨by simpa [cmStep, pushMessage] using h1, ?_⟩
    simp only [cmStep, pushMessage]
    rw [List.take_append_of_le_length hk]
    exact h2
  | reveal =>
    simp only [cmStep, addAccessibleMessage]
    by_cases hc : (st.messages.length : Int) ≤ st.accessible_index + 1
    · rw [if_pos hc]; exact ⟨h1, h2⟩
    · rw [if_neg hc]
      have hk_lt : st.accessible_messages.length < st.messages.length := by omega
      have htoNat : (st.accessible_index + 1).toNat = st.accessible_messages.length := by
        omega
      constructor
      · simp only [List.length_append, List.length_cons, List.length_nil]
        push_cast
        omega
      · simp only [List.length_append, List.length_cons, List.length_nil]
        rw [htoNat]
        have hsome : st.messages[st.accessible_messages.length]? =
            some (st.messages.getD st.accessible_messages.length default) := by
          rw [List.getElem?_eq_getElem hk_lt, List.getD_eq_getElem _ _ hk_lt]
        rw [show st.accessible_messages.length + 1 + 0 =
          st.accessible_messages.length + 1 by omega]
        rw [List.take_succ, hsome]
        rw [← h2]
        simp

/-- The visible-store invariant holds along any run of push / reveal
operations. -/
theorem runOps_invariant : ∀ (ops : List CMOp) (st : CMState),
    st.accessible_index = (st.accessible_messages.length : Int) - 1 →
    st.accessible_messages = st.messages.take st.accessible_messages.length →
    (ops.foldl cmStep st).accessible_index =
      (((ops.foldl cmStep st).accessible_messages.length : Int) - 1) ∧
    (ops.foldl cmStep st).accessible_messages =
      (ops.foldl cmStep st).messages.take
        (ops.foldl cmStep st).accessible_messages.length := by
  intro ops
  induction ops with
  | nil => intro st h1 h2; exact ⟨h1, h2⟩
  | cons op rest ih =>
    intro st h1 h2
    have h := cm_invariant_step st op h1 h2
    exact ih (cmStep st op) h.1 h.2

/-- Claim C4: along every sequence of push and reveal operations, the visible
message store is a prefix (an initial `take`) of the full message store in
push order; at any reached state, a reveal is a no-op when everything is
already visible, and otherwise extends the visible store by exactly the next
unrevealed message of the full store. -/
theorem visible_store_prefix_and_reveal_semantics :
    ∀ (ops : List CMOp),
      (runOps ops).accessible_messages =
        (runOps ops).messages.take (runOps ops).accessible_messages.length ∧
      ((runOps ops).messages.length ≤ (runOps ops).accessible_messages.length →
        addAccessibleMessage (runOps ops) = runOps ops) ∧
      ((runOps ops).accessible_messages.length < (runOps ops).messages.length →
        (addAccessibleMessage (runOps ops)).accessible_messages =
          (runOps ops).accessible_messages ++
            [(runOps ops).messages.getD (runOps ops).accessible_messages.length default] ∧
        (addAccessibleMessage (runOps ops)).messages = (runOps ops).messages) := by
  intro ops
  have hinv := runOps_invariant ops cmInit (by simp [cmInit]) (by simp [cmInit])
  have hrun : runOps ops = ops.foldl cmStep cmInit := rfl
  rw [← hrun] at hinv
  obtain ⟨h1, h2⟩ := hinv
  refine ⟨h2, fun hle => ?_, fun hlt => ?_⟩
  · have hcond : ((runOps ops).messages.length : Int) ≤ (runOps ops).accessible_index + 1 := by
      omega
    simp only [addAccessibleMessage]
    rw [if_pos hcond]
  · have hcond : ¬ ((runOps ops).messages.length : Int) ≤ (runOps ops).accessible_index + 1 := by
      omega
    have htoNat : ((runOps ops).accessible_index + 1).toNat =
        (runOps ops).accessible_messages.length := by omega
    simp only [addAccessibleMessage]
    rw [if_neg hcond]
    exact ⟨by rw [htoNat], rfl⟩

/-- Witness for C4: after pushing 5 messages and revealing 3 times, the
visible store is exactly the first 3 pushed messages in push order, and a
further reveal appends exactly the 4th. -/
theorem reveal_semantics_witness :
    (runOps opsFivePushThreeReveal).accessible_messages =
      (runOps opsFivePushThreeReveal).messages.take
        (runOps opsFivePushThreeReveal).accessible_messages.length ∧
    (runOps opsFivePushThreeReveal).accessible_messages.length <
      (runOps opsFivePushThreeReveal).messages.length ∧
    (addAccessibleMessage (runOps opsFivePushThreeReveal)).accessible_messages =
      (runOps opsFivePushThreeReveal).accessible_messages ++
        [(runOps opsFivePushThreeReveal).messages.getD
          (runOps opsFivePushThreeReveal).accessible_messages.length default] :=
  ⟨(visible_store_prefix_and_reveal_semantics opsFivePushThreeReveal).1,
   by decide,
   ((visible_store_prefix_and_reveal_semantics opsFivePushThreeReveal).2.2 (by decide)).1⟩

/-- Claim C3: the evaluator's score of each candidate equals impact ×
penalty with the spec's root-mean-square distance formulas, for any
fixed-dimensional embedding oracle. -/
theorem evaluator_score_matches_spec_formula :
    ∀ (embed : String → List ℝ) (D : ℕ) (ds : List (List String)),
      (∀ s, (embed s).length = D) →
      evaluatorEval embed ds =
        ds.map (fun d => spec_impact_score embed D d * spec_coherence_penalty embed D d) := by
  intro embed D ds hD
  unfold evaluatorEval
  rw [List.map_eq_map_iff]
  intro d _
  have hprev : spec_prev_segment d = lastCommentOf d := by
    unfold spec_prev_segment lastCommentOf
    rcases Nat.lt_or_ge d.length 2 with h | h
    · simp [h, Nat.not_le.mpr h]
    · simp [h, Nat.not_lt.mpr h]
  have hlast : spec_last_segment d = newCommentOf d := by
    unfold spec_last_segment newCommentOf
    rcases Nat.lt_or_ge d.length 2 with h | h
    · simp [h, Nat.not_le.mpr h]
    · simp [h, Nat.not_lt.mpr h]
  have h1 : impactScore embed d = spec_impact_score embed D d := by
    unfold impactScore spec_impact_score fullTextOf priorTextOf
    rw [List.dropLast_eq_take, hD, sqDiffSum_comm]
  have h2 : coherencePenalty embed d = spec_coherence_penalty embed D d := by
    unfold coherencePenalty coherenceDistance spec_coherence_penalty
    rw [hprev, hlast, hD, sqDiffSum_comm]
  rw [h1, h2]

/-- Witness for C3. -/
theorem evaluator_score_witness :
    (∀ s, (embedW s).length = 1) ∧
    evaluatorEval embedW [["a"], ["a", "b"]] =
      [["a"], ["a", "b"]].map
        (fun d => spec_impact_score embedW 1 d * spec_coherence_penalty embedW 1 d) :=
  ⟨fun _ => rfl,
    evaluator_score_matches_spec_formula embedW 1 [["a"], ["a", "b"]] (fun _ => rfl)⟩

/-- `argmaxList` returns an in-range index on nonempty lists. -/
theorem argmaxList_lt_length {α : Type} [LinearOrder α] :
    ∀ (l : List α), l ≠ [] → argmaxList l < l.length := by
  intro l
  induction l with
  | nil => intro h; exact absurd rfl h
  | cons x xs ih =>
    intro _
    cases xs with
    | nil => simp [argmaxList]
    | cons y rest =>
      by_cases hc : x < (y :: rest).getD (argmaxList (y :: rest)) x
      · have hlt := ih (by simp)
        simp only [argmaxList]
        rw [if_pos hc]
        simp only [List.length_cons] at hlt ⊢
        omega
      · simp only [argmaxList]
        rw [if_neg hc]
        simp

/-- `argmaxList` selects the first occurrence of the maximum: its value
bounds every entry, and every entry strictly before it is strictly below
it. -/
theorem argmaxList_spec {α : Type} [LinearOrder α] :
    ∀ (l : List α) (d : α) (j : ℕ), j < l.length →
      l.getD j d ≤ l.getD (argmaxList l) d ∧
      (j < argmaxList l → l.getD j d < l.getD (argmaxList l) d) := by
  intro l
  induction l with
  | nil => intro d j hj; simp at hj
  | cons x xs ih =>
    intro d j hj
    cases xs with
    | nil =>
      have hj0 : j = 0 := by simp at hj; omega
      subst hj0
      simp [argmaxList]
    | cons y rest =>
      have hm : argmaxList (y :: rest) < (y :: rest).length :=
        argmaxList_lt_length _ (by simp)
      by_cases hc : x < (y :: rest).getD (argmaxList (y :: rest)) x
      · have hax : argmaxList (x :: y :: rest) = argmaxList (y :: rest) + 1 := by
          simp only [argmaxList]; rw [if_pos hc]
        rw [hax]
        have hcd : x < (y :: rest).getD (argmaxList (y :: rest)) d := by
          rw [getD_irrel _ _ hm d x]; exact hc
        cases j with
        | zero =>
          refine ⟨?_, fun _ => ?_⟩
          · simpa [List.getD_cons_succ] using le_of_lt hcd
          · simpa [List.getD_cons_succ] using hcd
        | succ k =>
          have hk : k < (y :: rest).length := by
            simpa [Nat.succ_lt_succ_iff] using hj
          obtain ⟨hle, hstrict⟩ := ih d k hk
          refine ⟨?_, fun hjm => ?_⟩
          · simpa [List.getD_cons_succ] using hle
          · have hkm : k < argmaxList (y :: rest) := by omega
            simpa [List.getD_cons_succ] using hstrict hkm
      · have hax : argmaxList (x :: y :: rest) = 0 := by
          simp only [argmaxList]; rw [if_neg hc]
        rw [hax]
        have hcd : (y :: rest).getD (argmaxList (y :: rest)) d ≤ x := by
          rw [getD_irrel _ _ hm d x]; exact not_lt.mp hc
        cases j with
        | zero => exact ⟨le_refl _, fun h => absurd h (by omega)⟩
        | succ k =>
          have hk : k < (y :: rest).length := by
            simpa [Nat.succ_lt_succ_iff] using hj
          have hle := (ih d k hk).1
          refine ⟨?_, fun h => absurd h (by omega)⟩
          calc (x :: y :: rest).getD (k + 1) d
              = (y :: rest).getD k d := List.getD_cons_succ
            _ ≤ (y :: rest).getD (argmaxList (y :: rest)) d := hle
            _ ≤ x := hcd
            _ = (x :: y :: rest).getD 0 d := (List.getD_cons_zero).symm

/-- Claim C2: with a nonempty legal-action set, `get_best_response` returns
one of the speculatively generated candidates, namely the candidate whose
evaluator score is maximal with ties broken by first occurrence in candidate
order, and the panelist's history afterwards has gained exactly one new
user/assistant exchange: the winning (prompt, response) pair. -/
theorem best_response_selects_argmax_and_commits_once
    (embed : String → List ℝ) (llm : List ChatMsg → String)
    (sub : String → List (String × String) → String) (gen : List ChatMsg → String)
    (cfg : StrategistConfig) (prev : List String) (base : String) (st : PanelistState)
    (hne : legalActions embed llm sub cfg prev base ≠ []) :
    (getBestResponse embed llm sub gen cfg prev base st).1 ∈
      panelistGenerateWoLogList gen st (legalActions embed llm sub cfg prev base) ∧
    (getBestResponse embed llm sub gen cfg prev base st).1 =
      (panelistGenerateWoLogList gen st (legalActions embed llm sub cfg prev base)).getD
        (argmaxList (evaluatorEval embed
          ((panelistGenerateWoLogList gen st
            (legalActions embed llm sub cfg prev base)).map (fun r => prev ++ [r])))) "" ∧
    (∀ j,
      j < (evaluatorEval embed ((panelistGenerateWoLogList gen st
        (legalActions embed llm sub cfg prev base)).map (fun r => prev ++ [r]))).length →
      (evaluatorEval embed ((panelistGenerateWoLogList gen st
        (legalActions embed llm sub cfg prev base)).map (fun r => prev ++ [r]))).getD j 0 ≤
      (evaluatorEval embed ((panelistGenerateWoLogList gen st
        (legalActions embed llm sub cfg prev base)).map (fun r => prev ++ [r]))).getD
        (argmaxList (evaluatorEval embed ((panelistGenerateWoLogList gen st
          (legalActions embed llm sub cfg prev base)).map (fun r => prev ++ [r])))) 0) ∧
    (∀ j,
      j < argmaxList (evaluatorEval embed ((panelistGenerateWoLogList gen st
        (legalActions embed llm sub cfg prev base)).map (fun r => prev ++ [r]))) →
      (evaluatorEval embed ((panelistGenerateWoLogList gen st
        (legalActions embed llm sub cfg prev base)).map (fun r => prev ++ [r]))).getD j 0 <
      (evaluatorEval embed ((panelistGenerateWoLogList gen st
        (legalActions embed llm sub cfg prev base)).map (fun r => prev ++ [r]))).getD
        (argmaxList (evaluatorEval embed ((panelistGenerateWoLogList gen st
          (legalActions embed llm sub cfg prev base)).map (fun r => prev ++ [r])))) 0) ∧
    (getBestResponse embed llm sub gen cfg prev base st).2.chat_log =
      st.chat_log ++
        [formatUserMessage ((legalActions embed llm sub cfg prev base).getD
          (argmaxList (evaluatorEval embed ((panelistGenerateWoLogList gen st
            (legalActions embed llm sub cfg prev base)).map (fun r => prev ++ [r])))) ""),
         formatAssistantMessage ((getBestResponse embed llm sub gen cfg prev base st).1)] := by
  set legal := legalActions embed llm sub cfg prev base with hlegal
  set responses := panelistGenerateWoLogList gen st legal with hresp
  set rewards := evaluatorEval embed (responses.map (fun r => prev ++ [r])) with hrew
  set k := argmaxList rewards with hkdef
  have hlr : responses.length = legal.length := by
    rw [hresp]; simp [panelistGenerateWoLogList]
  have hrr : rewards.length = responses.length := by
    rw [hrew]; simp [evaluatorEval]
  have hrne : rewards ≠ [] := by
    intro h
    have h0 := congrArg List.length h
    simp only [List.length_nil] at h0
    rw [hrr, hlr] at h0
    exact hne (List.length_eq_zero.mp h0)
  have hk : k < rewards.length := argmaxList_lt_length rewards hrne
  have hkresp : k < responses.length := by omega
  have hfst : (getBestResponse embed llm sub gen cfg prev base st).1 =
      responses.getD k "" := rfl
  refine ⟨?_, hfst, fun j hj => (argmaxList_spec rewards 0 j hj).1,
    fun j hj => (argmaxList_spec rewards 0 j (by omega)).2 hj, ?_⟩
  · rw [hfst, List.getD_eq_getElem _ _ hkresp]
    exact List.getElem_mem hkresp
  · rfl

/-- Witness for C2. -/
theorem best_response_witness :
    legalActions embedW llmW substW strategistCfgW [] "B" ≠ [] ∧
    (getBestResponse embedW llmW substW genW strategistCfgW [] "B" panelistW).1 ∈
      panelistGenerateWoLogList genW panelistW
        (legalActions embedW llmW substW strategistCfgW [] "B") := by
  have hne : legalActions embedW llmW substW strategistCfgW [] "B" ≠ [] := by
    simp [legalActions, strategistCfgW]
  exact ⟨hne, (best_response_selects_argmax_and_commits_once embedW llmW substW genW
    strategistCfgW [] "B" panelistW hne).1⟩

end AicLocal
